import Mathlib

/-
  Shallow embedding of the rattle parser (src/rtl_parser/src/lib.rs).

  The parser consumes an already-tokenized stream of proc-macro token
  trees: identifiers (keywords included, as in proc_macro2), punctuation
  tokens, literals, and delimiter-balanced groups.  A stream is a
  `List Tok`; every sub-parser takes the stream and returns either an
  error or a value paired with the remaining stream, mirroring
  syn::parse::ParseStream where forking the stream is modelled by
  running a parse on the current list without committing its result.

  Loops in the source (`while !input.is_empty() { ... }`) are embedded
  with an explicit fuel argument; each call site supplies
  `stream.length + 1` fuel, which is always sufficient because every
  loop iteration consumes at least one token.
-/

/-- Delimiters of proc-macro groups. -/
inductive Delim : Type
  | paren
  | brace
  | bracket
deriving DecidableEq

/-- One proc-macro token tree: identifier (keywords are identifier
tokens, as in proc_macro2), punctuation, literal, or delimited group. -/
inductive Tok : Type
  | ident (s : String)
  | punct (s : String)
  | lit (s : String)
  | group (d : Delim) (inner : List Tok)

/-- Parse errors: a missing expected token, an aggregated lookahead1
error carrying every expected alternative, or fuel exhaustion (never
reached by the fueled call sites, which pass `length + 1`). -/
inductive PErr : Type
  | expectedToken (what : String)
  | lookaheadFailed (expected : List String)
  | outOfFuel

/-- The Rust keywords rejected by syn when parsing an `Ident`. -/
def rustKeywords : List String :=
  ["as", "break", "const", "continue", "crate", "dyn", "else", "enum",
   "extern", "false", "fn", "for", "if", "impl", "in", "let", "loop",
   "match", "mod", "move", "mut", "pub", "ref", "return", "self", "Self",
   "static", "struct", "super", "trait", "true", "type", "unsafe", "use",
   "where", "while", "async", "await", "abstract", "become", "box", "do",
   "final", "override", "priv", "typeof", "unsized", "virtual", "yield",
   "try"]

/-- `input.parse::<Ident>()`: an identifier token that is not a Rust
keyword. -/
def parseIdent (s : List Tok) : Except PErr (String × List Tok) :=
  match s with
  | Tok.ident n :: rest =>
      if rustKeywords.contains n then Except.error (PErr.expectedToken ("identifier"))
      else Except.ok (n, rest)
  | _ => Except.error (PErr.expectedToken ("identifier"))

/-- Parsing a specific keyword token (custom keywords such as `f`,
`import`, `gen`, `def`, `var`, and Rust keyword tokens such as `const`;
all are identifier tokens with a fixed string). -/
def parseKw (kw : String) (s : List Tok) : Except PErr (Unit × List Tok) :=
  match s with
  | Tok.ident n :: rest =>
      if n = kw then Except.ok ((), rest) else Except.error (PErr.expectedToken kw)
  | _ => Except.error (PErr.expectedToken kw)

/-- Parsing a specific punctuation token (`;`, `,`, `::`, `=`). -/
def parsePunct (p : String) (s : List Tok) : Except PErr (Unit × List Tok) :=
  match s with
  | Tok.punct q :: rest =>
      if q = p then Except.ok ((), rest) else Except.error (PErr.expectedToken p)
  | _ => Except.error (PErr.expectedToken p)

/-- `parenthesized!` / `braced!`: enter a delimited group, yielding its
inner stream and the outer remainder. -/
def parseGroup (d : Delim) (s : List Tok) : Except PErr (List Tok × List Tok) :=
  match s with
  | Tok.group d2 inner :: rest =>
      if d2 = d then Except.ok (inner, rest) else Except.error (PErr.expectedToken ("group"))
  | _ => Except.error (PErr.expectedToken ("group"))

/-- `input.peek(...)` for a keyword-like identifier token. -/
def peekIdentKw (kw : String) (s : List Tok) : Bool :=
  match s with
  | Tok.ident n :: _ => n = kw
  | _ => false

/-- `input.peek(...)` for a punctuation token. -/
def peekPunct (p : String) (s : List Tok) : Bool :=
  match s with
  | Tok.punct q :: _ => q = p
  | _ => false

/-- Whether an exploratory parse succeeded. -/
def isOkE {α : Type} (r : Except PErr α) : Bool :=
  match r with
  | Except.ok _ => true
  | Except.error _ => false

/-- `input.fork().parse::<Token![;]>().is_ok()`. -/
def forkSemi (s : List Tok) : Bool := isOkE (parsePunct (";") s)

/-- `input.fork().parse::<Token![as]>().is_ok()`. -/
def forkAs (s : List Tok) : Bool := isOkE (parseKw ("as") s)

/-- `input.fork().parse::<Token![::]>().is_ok()`. -/
def forkPathSep (s : List Tok) : Bool := isOkE (parsePunct ("::") s)

/-- Placeholder expression node (unit, as in the source). -/
inductive RtlExpr : Type
  | mk

/-- Placeholder body node (unit, as in the source). -/
inductive RtlBody : Type
  | mk

/-- A function argument: type identifier and name identifier. -/
structure RtlFnArg : Type where
  ty : String
  name : String

/-- A rattle function: name, arguments, return type, placeholder body. -/
structure RtlFn : Type where
  name : String
  args : List RtlFnArg
  ret : String
  body : RtlBody

/-- A rattle constant. -/
structure RtlConstExpr : Type where
  name : String
  ty : String
  data : RtlExpr

/-- A rattle variable. -/
structure RtlVarExpr : Type where
  name : String
  ty : String
  is_mut : Bool
  data : RtlExpr

/-- A rattle static. -/
structure RtlStatic : Type where
  name : String
  ty : String
  is_mut : Bool
  data : RtlExpr

/-- A struct field: type identifier and name identifier. -/
structure RtlStructField : Type where
  ty : String
  name : String

/-- A rattle struct: name and ordered field list. -/
structure RtlStruct : Type where
  name : String
  fields : List RtlStructField

/-- A def block: extended identifier, nested functions, optional target. -/
structure RtlDef : Type where
  struct_name : String
  defs : List RtlFn
  def_for : Option String

/-- A generic block: nested functions only. -/
structure RtlGen : Type where
  methods : List RtlFn

/-- An import: ordered path segments and an optional aliasId. -/
structure RtlImport : Type where
  path : List String
  aliasId : Option String

/-- The seven-variant declaration payload. -/
inductive RtlDeclValue : Type
  | RtlFn (v : RtlFn)
  | RtlConst (v : RtlConstExpr)
  | RtlVar (v : RtlVarExpr)
  | RtlStatic (v : RtlStatic)
  | RtlStruct (v : RtlStruct)
  | RtlDef (v : RtlDef)
  | RtlGen (v : RtlGen)

/-- A declaration wraps one payload. -/
structure RtlDecl : Type where
  value : RtlDeclValue

/-- Public exports (never populated by the parser). -/
inductive RtlPub : Type
  | mk

/-- A whole rattle program. -/
structure Rattle : Type where
  decls : List RtlDecl
  imports : List RtlImport
  public : List RtlPub

/-- `impl Parse for RtlExpr`: succeeds unconditionally, consuming
nothing. -/
def RtlExpr.parse (s : List Tok) : Except PErr (RtlExpr × List Tok) :=
  Except.ok (RtlExpr.mk, s)

/-- `impl Parse for RtlBody`: succeeds unconditionally, consuming
nothing. -/
def RtlBody.parse (s : List Tok) : Except PErr (RtlBody × List Tok) :=
  Except.ok (RtlBody.mk, s)

/-- `impl Parse for RtlFnArg`: type identifier then name identifier. -/
def RtlFnArg.parse (s : List Tok) : Except PErr (RtlFnArg × List Tok) :=
  match parseIdent s with
  | Except.error e => Except.error e
  | Except.ok (ty, s1) =>
    match parseIdent s1 with
    | Except.error e => Except.error e
    | Except.ok (name, s2) => Except.ok ({ ty := ty, name := name }, s2)

/-- The argument loop of `RtlFn::parse`: while the parenthesized content
is non-empty, parse an argument, then a comma unless the content
emptied. -/
def fnArgsLoop : Nat → List Tok → List RtlFnArg → Except PErr (List RtlFnArg)
  | 0, _, _ => Except.error PErr.outOfFuel
  | _ + 1, [], acc => Except.ok acc
  | fuel + 1, t :: rest, acc =>
    match RtlFnArg.parse (t :: rest) with
    | Except.error e => Except.error e
    | Except.ok (a, s1) =>
      match s1 with
      | [] => Except.ok (acc ++ [a])
      | _ :: _ =>
        match parsePunct (",") s1 with
        | Except.error e => Except.error e
        | Except.ok (_, s2) => fnArgsLoop fuel s2 (acc ++ [a])

/-- `impl Parse for RtlFn`: `f`, name, parenthesized argument list,
return type; then fork-probe for a terminator — committed on success,
otherwise the (placeholder) body is parsed on the real stream.  The
inner `body` binding of the else branch shadows and is discarded, as in
the source. -/
def RtlFn.parse (s : List Tok) : Except PErr (RtlFn × List Tok) :=
  match parseKw ("f") s with
  | Except.error e => Except.error e
  | Except.ok (_, s1) =>
    match parseIdent s1 with
    | Except.error e => Except.error e
    | Except.ok (name, s2) =>
      match parseGroup Delim.paren s2 with
      | Except.error e => Except.error e
      | Except.ok (content, s3) =>
        match fnArgsLoop (content.length + 1) content [] with
        | Except.error e => Except.error e
        | Except.ok args =>
          match parseIdent s3 with
          | Except.error e => Except.error e
          | Except.ok (ret, s4) =>
            let body := RtlBody.mk
            if forkSemi s4 then
              match parsePunct (";") s4 with
              | Except.error e => Except.error e
              | Except.ok (_, s5) =>
                  Except.ok ({ name := name, args := args, ret := ret, body := body }, s5)
            else
              match RtlBody.parse s4 with
              | Except.error e => Except.error e
              | Except.ok (_, s5) =>
                  Except.ok ({ name := name, args := args, ret := ret, body := body }, s5)

/-- `impl Parse for RtlConstExpr`: `const`, type, name, `=`, expression
placeholder, terminator. -/
def RtlConstExpr.parse (s : List Tok) : Except PErr (RtlConstExpr × List Tok) :=
  match parseKw ("const") s with
  | Except.error e => Except.error e
  | Except.ok (_, s1) =>
    match parseIdent s1 with
    | Except.error e => Except.error e
    | Except.ok (ty, s2) =>
      match parseIdent s2 with
      | Except.error e => Except.error e
      | Except.ok (name, s3) =>
        match parsePunct ("=") s3 with
        | Except.error e => Except.error e
        | Except.ok (_, s4) =>
          match RtlExpr.parse s4 with
          | Except.error e => Except.error e
          | Except.ok (data, s5) =>
            match parsePunct (";") s5 with
            | Except.error e => Except.error e
            | Except.ok (_, s6) =>
                Except.ok ({ name := name, ty := ty, data := data }, s6)

/-- `impl Parse for RtlVarExpr`: `var`, type, optional `mut`, name, `=`,
expression placeholder, terminator. -/
def RtlVarExpr.parse (s : List Tok) : Except PErr (RtlVarExpr × List Tok) :=
  match parseKw ("var") s with
  | Except.error e => Except.error e
  | Except.ok (_, s1) =>
    match parseIdent s1 with
    | Except.error e => Except.error e
    | Except.ok (ty, s2) =>
      let m := peekIdentKw ("mut") s2
      match (if m then parseKw ("mut") s2 else Except.ok ((), s2)) with
      | Except.error e => Except.error e
      | Except.ok (_, s3) =>
        match parseIdent s3 with
        | Except.error e => Except.error e
        | Except.ok (name, s4) =>
          match parsePunct ("=") s4 with
          | Except.error e => Except.error e
          | Except.ok (_, s5) =>
            match RtlExpr.parse s5 with
            | Except.error e => Except.error e
            | Except.ok (data, s6) =>
              match parsePunct (";") s6 with
              | Except.error e => Except.error e
              | Except.ok (_, s7) =>
                  Except.ok ({ name := name, ty := ty, is_mut := m, data := data }, s7)

/-- `impl Parse for RtlStatic`: `static`, type, optional `mut`, name,
`=`, expression placeholder, terminator. -/
def RtlStatic.parse (s : List Tok) : Except PErr (RtlStatic × List Tok) :=
  match parseKw ("static") s with
  | Except.error e => Except.error e
  | Except.ok (_, s1) =>
    match parseIdent s1 with
    | Except.error e => Except.error e
    | Except.ok (ty, s2) =>
      let m := peekIdentKw ("mut") s2
      match (if m then parseKw ("mut") s2 else Except.ok ((), s2)) with
      | Except.error e => Except.error e
      | Except.ok (_, s3) =>
        match parseIdent s3 with
        | Except.error e => Except.error e
        | Except.ok (name, s4) =>
          match parsePunct ("=") s4 with
          | Except.error e => Except.error e
          | Except.ok (_, s5) =>
            match RtlExpr.parse s5 with
            | Except.error e => Except.error e
            | Except.ok (data, s6) =>
              match parsePunct (";") s6 with
              | Except.error e => Except.error e
              | Except.ok (_, s7) =>
                  Except.ok ({ name := name, ty := ty, is_mut := m, data := data }, s7)

/-- `impl Parse for RtlStructField`: type identifier then name
identifier. -/
def RtlStructField.parse (s : List Tok) : Except PErr (RtlStructField × List Tok) :=
  match parseIdent s with
  | Except.error e => Except.error e
  | Except.ok (ty, s1) =>
    match parseIdent s1 with
    | Except.error e => Except.error e
    | Except.ok (name, s2) => Except.ok ({ ty := ty, name := name }, s2)

/-- The field loop of `RtlStruct::parse`: while the braced content is
non-empty, parse a field, then a comma unless the content emptied. -/
def fieldsLoop : Nat → List Tok → List RtlStructField → Except PErr (List RtlStructField)
  | 0, _, _ => Except.error PErr.outOfFuel
  | _ + 1, [], acc => Except.ok acc
  | fuel + 1, t :: rest, acc =>
    match RtlStructField.parse (t :: rest) with
    | Except.error e => Except.error e
    | Except.ok (fld, s1) =>
      match s1 with
      | [] => Except.ok (acc ++ [fld])
      | _ :: _ =>
        match parsePunct (",") s1 with
        | Except.error e => Except.error e
        | Except.ok (_, s2) => fieldsLoop fuel s2 (acc ++ [fld])

/-- `impl Parse for RtlStruct`: `struct`, name, braced field list.  No
terminator after the closing brace. -/
def RtlStruct.parse (s : List Tok) : Except PErr (RtlStruct × List Tok) :=
  match parseKw ("struct") s with
  | Except.error e => Except.error e
  | Except.ok (_, s1) =>
    match parseIdent s1 with
    | Except.error e => Except.error e
    | Except.ok (name, s2) =>
      match parseGroup Delim.brace s2 with
      | Except.error e => Except.error e
      | Except.ok (content, s3) =>
        match fieldsLoop (content.length + 1) content [] with
        | Except.error e => Except.error e
        | Except.ok fields => Except.ok ({ name := name, fields := fields }, s3)

/-- The nested-function loop of `RtlDef::parse`: while the braced
content is non-empty, parse a full function. -/
def defFnsLoop : Nat → List Tok → List RtlFn → Except PErr (List RtlFn)
  | 0, _, _ => Except.error PErr.outOfFuel
  | _ + 1, [], acc => Except.ok acc
  | fuel + 1, t :: rest, acc =>
    match RtlFn.parse (t :: rest) with
    | Except.error e => Except.error e
    | Except.ok (fn, s1) => defFnsLoop fuel s1 (acc ++ [fn])

/-- `impl Parse for RtlDef`: `def`, name, braced function list, optional
`for` clause, optional trailing terminator. -/
def RtlDef.parse (s : List Tok) : Except PErr (RtlDef × List Tok) :=
  match parseKw ("def") s with
  | Except.error e => Except.error e
  | Except.ok (_, s1) =>
    match parseIdent s1 with
    | Except.error e => Except.error e
    | Except.ok (struct_name, s2) =>
      match parseGroup Delim.brace s2 with
      | Except.error e => Except.error e
      | Except.ok (content, s3) =>
        match defFnsLoop (content.length + 1) content [] with
        | Except.error e => Except.error e
        | Except.ok defs =>
          match (if peekIdentKw ("for") s3 then
                   match parseKw ("for") s3 with
                   | Except.error e => Except.error e
                   | Except.ok (_, s4) =>
                     match parseIdent s4 with
                     | Except.error e => Except.error e
                     | Except.ok (t, s5) => Except.ok (some t, s5)
                 else Except.ok (none, s3)) with
          | Except.error e => Except.error e
          | Except.ok (def_for, s6) =>
            match (if peekPunct (";") s6 then parsePunct (";") s6 else Except.ok ((), s6)) with
            | Except.error e => Except.error e
            | Except.ok (_, s7) =>
                Except.ok ({ struct_name := struct_name, defs := defs, def_for := def_for }, s7)

/-- The method loop of `RtlGen::parse`: while the (whole remaining)
stream is non-empty, parse a full function. -/
def genLoop : Nat → List Tok → List RtlFn → Except PErr (List RtlFn × List Tok)
  | 0, _, _ => Except.error PErr.outOfFuel
  | _ + 1, [], acc => Except.ok (acc, [])
  | fuel + 1, t :: rest, acc =>
    match RtlFn.parse (t :: rest) with
    | Except.error e => Except.error e
    | Except.ok (fn, s1) => genLoop fuel s1 (acc ++ [fn])

/-- `impl Parse for RtlGen`: `gen`, then functions until the stream is
exhausted. -/
def RtlGen.parse (s : List Tok) : Except PErr (RtlGen × List Tok) :=
  match parseKw ("gen") s with
  | Except.error e => Except.error e
  | Except.ok (_, s1) =>
    match genLoop (s1.length + 1) s1 [] with
    | Except.error e => Except.error e
    | Except.ok (methods, s2) => Except.ok ({ methods := methods }, s2)

/-- Wrapping a sub-parser result into a declaration, as each arm of
`RtlDecl::parse` does. -/
def wrapD {α : Type} (p : Except PErr (α × List Tok)) (g : α → RtlDeclValue) :
    Except PErr (RtlDecl × List Tok) :=
  match p with
  | Except.error e => Except.error e
  | Except.ok (v, s1) => Except.ok ({ value := g v }, s1)

/-- The expected-token names accumulated by `lookahead1` in
`RtlDecl::parse`, in the order the source peeks them. -/
def declExpected : List String :=
  ["f", "const", "var", "static", "struct", "def", "gen"]

/-- `impl Parse for RtlDecl`: one-token lookahead over the seven
declaration keywords; if none matches, the aggregated lookahead error
names every candidate. -/
def RtlDecl.parse (s : List Tok) : Except PErr (RtlDecl × List Tok) :=
  if peekIdentKw ("f") s then wrapD (RtlFn.parse s) RtlDeclValue.RtlFn
  else if peekIdentKw ("const") s then wrapD (RtlConstExpr.parse s) RtlDeclValue.RtlConst
  else if peekIdentKw ("var") s then wrapD (RtlVarExpr.parse s) RtlDeclValue.RtlVar
  else if peekIdentKw ("static") s then wrapD (RtlStatic.parse s) RtlDeclValue.RtlStatic
  else if peekIdentKw ("struct") s then wrapD (RtlStruct.parse s) RtlDeclValue.RtlStruct
  else if peekIdentKw ("def") s then wrapD (RtlDef.parse s) RtlDeclValue.RtlDef
  else if peekIdentKw ("gen") s then wrapD (RtlGen.parse s) RtlDeclValue.RtlGen
  else Except.error (PErr.lookaheadFailed declExpected)

/-- `impl Parse for RtlImport`, inner loop: until the stream empties,
fork-probe in order for `as` (commit and record the aliasId), the
terminator (commit and stop), the path separator (commit and continue),
otherwise consume one identifier as a path segment. -/
def importLoop : Nat → List Tok → List String → Option String →
    Except PErr ((List String × Option String) × List Tok)
  | 0, _, _, _ => Except.error PErr.outOfFuel
  | _ + 1, [], parts, aliasId => Except.ok ((parts, aliasId), [])
  | fuel + 1, t :: rest, parts, aliasId =>
    let s := t :: rest
    if forkAs s then
      match parseKw ("as") s with
      | Except.error e => Except.error e
      | Except.ok (_, s1) =>
        match parseIdent s1 with
        | Except.error e => Except.error e
        | Except.ok (a, s2) => importLoop fuel s2 parts (some a)
    else if forkSemi s then
      match parsePunct (";") s with
      | Except.error e => Except.error e
      | Except.ok (_, s1) => Except.ok ((parts, aliasId), s1)
    else if forkPathSep s then
      match parsePunct ("::") s with
      | Except.error e => Except.error e
      | Except.ok (_, s1) => importLoop fuel s1 parts aliasId
    else
      match parseIdent s with
      | Except.error e => Except.error e
      | Except.ok (n, s1) => importLoop fuel s1 (parts ++ [n]) aliasId

/-- `impl Parse for RtlImport`: the `import` keyword, then the segment
and aliasId loop. -/
def RtlImport.parse (s : List Tok) : Except PErr (RtlImport × List Tok) :=
  match parseKw ("import") s with
  | Except.error e => Except.error e
  | Except.ok (_, s1) =>
    match importLoop (s1.length + 1) s1 [] none with
    | Except.error e => Except.error e
    | Except.ok ((parts, aliasId), s2) => Except.ok ({ path := parts, aliasId := aliasId }, s2)

/-- The import loop of `Rattle::parse`: while the next token is the
`import` keyword, parse an import. -/
def importsLoop : Nat → List Tok → List RtlImport → Except PErr (List RtlImport × List Tok)
  | 0, _, _ => Except.error PErr.outOfFuel
  | fuel + 1, s, acc =>
    if peekIdentKw ("import") s then
      match RtlImport.parse s with
      | Except.error e => Except.error e
      | Except.ok (i, s1) => importsLoop fuel s1 (acc ++ [i])
    else Except.ok (acc, s)

/-- The declaration loop of `Rattle::parse`: while the stream is
non-empty, commit one stray terminator if a fork can parse one, then
parse a declaration. -/
def declsLoop : Nat → List Tok → List RtlDecl → Except PErr (List RtlDecl × List Tok)
  | 0, _, _ => Except.error PErr.outOfFuel
  | _ + 1, [], acc => Except.ok (acc, [])
  | fuel + 1, t :: rest, acc =>
    let s := t :: rest
    match (if forkSemi s then parsePunct (";") s else Except.ok ((), s)) with
    | Except.error e => Except.error e
    | Except.ok (_, s1) =>
      match RtlDecl.parse s1 with
      | Except.error e => Except.error e
      | Except.ok (d, s2) => declsLoop fuel s2 (acc ++ [d])

/-- `impl Parse for Rattle`: leading imports, then declarations until
the stream is exhausted; exports stay empty. -/
def Rattle.parse (s : List Tok) : Except PErr (Rattle × List Tok) :=
  match importsLoop (s.length + 1) s [] with
  | Except.error e => Except.error e
  | Except.ok (imports, s1) =>
    match declsLoop (s1.length + 1) s1 [] with
    | Except.error e => Except.error e
    | Except.ok (decls, s2) =>
        Except.ok ({ decls := decls, imports := imports, public := [] }, s2)

/-- The crate entry `parse`: run `Rattle::parse` on the token stream;
as with `syn::parse2`, any leftover tokens are an error. -/
def parse (s : List Tok) : Except PErr Rattle :=
  match Rattle.parse s with
  | Except.error e => Except.error e
  | Except.ok (r, rest) =>
      if rest.isEmpty then Except.ok r
      else Except.error (PErr.expectedToken ("end of input"))

/-- Whether a string is usable as a plain identifier token. -/
def validIdent (n : String) : Bool := !(rustKeywords.contains n)

/-- Tokens of an import path `a::b::c` (segments interleaved with
separators). -/
def importPathToks : List String → List Tok
  | [] => []
  | [x] => [Tok.ident x]
  | x :: y :: ys => Tok.ident x :: Tok.punct ("::") :: importPathToks (y :: ys)

/-- Tokens of a struct field list `T1 n1, T2 n2` without trailing
comma. -/
def structFieldsToks : List (String × String) → List Tok
  | [] => []
  | [(t, n)] => [Tok.ident t, Tok.ident n]
  | (t, n) :: q :: qs => Tok.ident t :: Tok.ident n :: Tok.punct (",") :: structFieldsToks (q :: qs)

/-- The field node a (type, name) pair parses to. -/
def mkField (p : String × String) : RtlStructField :=
  { ty := p.1, name := p.2 }

/-- Whether the next token matches any of the seven declaration
keywords peeked by `RtlDecl::parse`. -/
def declKeywordAt (s : List Tok) : Bool :=
  peekIdentKw ("f") s || peekIdentKw ("const") s || peekIdentKw ("var") s ||
  peekIdentKw ("static") s || peekIdentKw ("struct") s || peekIdentKw ("def") s ||
  peekIdentKw ("gen") s

/-- The generic-block loop only returns successfully once the stream is
exhausted, so the remaining stream of a successful run is empty. -/
theorem genLoop_rest_nil :
    ∀ fuel s acc ms r, genLoop fuel s acc = Except.ok (ms, r) → r = [] := by
  intro fuel
  induction fuel with
  | zero =>
      intro s acc ms r h
      simp [genLoop] at h
  | succ n ih =>
      intro s acc ms r h
      match s with
      | [] =>
          simp [genLoop] at h
          exact h.2
      | t :: rest =>
          rw [genLoop] at h
          cases hp : RtlFn.parse (t :: rest) with
          | error e => rw [hp] at h; exact absurd h (by simp)
          | ok v =>
              rw [hp] at h
              exact ih v.2 (acc ++ [v.1]) ms r h

/-- A valid identifier string differs from every keyword string. -/
theorem validIdent_not_kw {x k : String} (h : validIdent x = true)
    (hk : rustKeywords.contains k = true) : ¬ (x = k) := by
  intro he
  subst he
  simp [validIdent] at h
  exact h (by simpa using hk)

/-- Consuming an encoded import path shifts the import loop onto its
tail, appending the segments to the accumulator, for any sufficient
fuel. -/
theorem importLoop_shift :
    ∀ (xs : List String) (fuel : Nat) (parts : List String) (al : Option String)
      (tail : List Tok) (target : Except PErr ((List String × Option String) × List Tok)),
    (∀ x ∈ xs, validIdent x = true) →
    (importPathToks xs ++ tail).length < fuel →
    (∀ g, tail.length < g → importLoop g tail (parts ++ xs) al = target) →
    importLoop fuel (importPathToks xs ++ tail) parts al = target := by
  intro xs
  induction xs with
  | nil =>
      intro fuel parts al tail target _ hlen hcont
      simpa [importPathToks] using hcont fuel (by simpa [importPathToks] using hlen)
  | cons x xs ih =>
      intro fuel parts al tail target hv hlen hcont
      have hxval : validIdent x = true := hv x (by simp)
      have hxas : ¬ (x = "as") := validIdent_not_kw hxval (by decide)
      have hxc : rustKeywords.contains x = false := by
        simpa [validIdent] using hxval
      cases xs with
      | nil =>
          obtain ⟨f, rfl⟩ : ∃ f, fuel = f + 1 := ⟨fuel - 1, by omega⟩
          rw [show importPathToks [x] ++ tail = Tok.ident x :: tail by
            simp [importPathToks]]
          simp only [importLoop, forkAs, forkSemi, forkPathSep, parseKw, parsePunct,
            parseIdent, isOkE, hxas, hxc, if_false, if_neg, Bool.false_eq_true,
            ite_false]
          exact hcont f (by simp [importPathToks] at hlen; omega)
      | cons y ys =>
          obtain ⟨f, rfl⟩ : ∃ f, fuel = f + 1 := ⟨fuel - 1, by omega⟩
          rw [show importPathToks (x :: y :: ys) ++ tail =
                Tok.ident x :: Tok.punct ("::") :: (importPathToks (y :: ys) ++ tail) by
            simp [importPathToks]]
          simp only [importLoop, forkAs, forkSemi, forkPathSep, parseKw, parsePunct,
            parseIdent, isOkE, hxas, hxc, if_false, if_neg, Bool.false_eq_true,
            ite_false]
          have hf : ∃ f1, f = f1 + 1 := by
            refine ⟨f - 1, ?_⟩
            simp [importPathToks] at hlen
            omega
          obtain ⟨f1, rfl⟩ := hf
          simp only [importLoop, forkAs, forkSemi, forkPathSep, parseKw, parsePunct,
            parseIdent, isOkE]
          refine ih f1 (parts ++ [x]) al tail target
            (fun z hz => hv z (by simp [hz])) ?_ ?_
          · simp [importPathToks] at hlen ⊢
            omega
          · intro g hg
            simpa using hcont g hg

/-- The struct-field loop on an encoded field list without a trailing
comma appends exactly the parsed fields to the accumulator. -/
theorem fieldsLoop_plain :
    ∀ (fs : List (String × String)) (fuel : Nat) (acc : List RtlStructField),
    (∀ p ∈ fs, validIdent p.1 = true ∧ validIdent p.2 = true) →
    (structFieldsToks fs).length < fuel →
    fieldsLoop fuel (structFieldsToks fs) acc = Except.ok (acc ++ fs.map mkField) := by
  intro fs
  induction fs with
  | nil =>
      intro fuel acc _ hlen
      obtain ⟨f, rfl⟩ : ∃ f, fuel = f + 1 := ⟨fuel - 1, by omega⟩
      simp [structFieldsToks, fieldsLoop]
  | cons p fs ih =>
      obtain ⟨t, n⟩ := p
      intro fuel acc hv hlen
      have hvt : t ∉ rustKeywords := by
        have := (hv (t, n) (by simp)).1
        simp [validIdent] at this
        exact this
      have hvn : n ∉ rustKeywords := by
        have := (hv (t, n) (by simp)).2
        simp [validIdent] at this
        exact this
      cases fs with
      | nil =>
          obtain ⟨f, rfl⟩ : ∃ f, fuel = f + 1 := ⟨fuel - 1, by omega⟩
          simp [structFieldsToks, fieldsLoop, RtlStructField.parse, parseIdent,
            hvt, hvn, mkField]
      | cons q qs =>
          obtain ⟨f, rfl⟩ : ∃ f, fuel = f + 1 := ⟨fuel - 1, by omega⟩
          have hstep := ih f (acc ++ [{ ty := t, name := n }])
            (fun z hz => hv z (by simp [hz]))
            (by simp [structFieldsToks] at hlen ⊢; omega)
          rw [show structFieldsToks ((t, n) :: q :: qs) =
                Tok.ident t :: Tok.ident n :: Tok.punct (",") :: structFieldsToks (q :: qs)
              from rfl]
          simp only [fieldsLoop, RtlStructField.parse, parseIdent, parsePunct]
          simp [hvt, hvn, hstep, mkField]

/-- The struct-field loop on an encoded field list with one trailing
comma appends exactly the parsed fields to the accumulator. -/
theorem fieldsLoop_trailing :
    ∀ (fs : List (String × String)) (fuel : Nat) (acc : List RtlStructField),
    fs ≠ [] →
    (∀ p ∈ fs, validIdent p.1 = true ∧ validIdent p.2 = true) →
    (structFieldsToks fs).length + 1 < fuel →
    fieldsLoop fuel (structFieldsToks fs ++ [Tok.punct (",")]) acc
      = Except.ok (acc ++ fs.map mkField) := by
  intro fs
  induction fs with
  | nil =>
      intro fuel acc hne _ _
      exact absurd rfl hne
  | cons p fs ih =>
      obtain ⟨t, n⟩ := p
      intro fuel acc _ hv hlen
      have hvt : t ∉ rustKeywords := by
        have := (hv (t, n) (by simp)).1
        simp [validIdent] at this
        exact this
      have hvn : n ∉ rustKeywords := by
        have := (hv (t, n) (by simp)).2
        simp [validIdent] at this
        exact this
      cases fs with
      | nil =>
          obtain ⟨f, rfl⟩ : ∃ f, fuel = f + 1 := ⟨fuel - 1, by omega⟩
          obtain ⟨f1, rfl⟩ : ∃ f1, f = f1 + 1 := by
            refine ⟨f - 1, ?_⟩
            simp [structFieldsToks] at hlen
            omega
          simp [structFieldsToks, fieldsLoop, RtlStructField.parse, parseIdent,
            hvt, hvn, parsePunct, mkField]
      | cons q qs =>
          obtain ⟨f, rfl⟩ : ∃ f, fuel = f + 1 := ⟨fuel - 1, by omega⟩
          have hstep := ih f (acc ++ [{ ty := t, name := n }]) (by simp)
            (fun z hz => hv z (by simp [hz]))
            (by simp [structFieldsToks] at hlen ⊢; omega)
          rw [show structFieldsToks ((t, n) :: q :: qs) ++ [Tok.punct (",")] =
                Tok.ident t :: Tok.ident n :: Tok.punct (",") ::
                  (structFieldsToks (q :: qs) ++ [Tok.punct (",")])
              from rfl]
          simp only [fieldsLoop, RtlStructField.parse, parseIdent, parsePunct]
          simp [hvt, hvn, hstep, mkField]

/-- Evaluation rule for `RtlImport.parse` given the import loop's
result. -/
theorem RtlImport_parse_eval (S : List Tok) (parts : List String) (al : Option String)
    (r : List Tok)
    (h : importLoop (S.length + 1) S [] none = Except.ok ((parts, al), r)) :
    RtlImport.parse (Tok.ident ("import") :: S)
      = Except.ok ({ path := parts, aliasId := al }, r) := by
  have h1 : parseKw ("import") (Tok.ident ("import") :: S) = Except.ok ((), S) := rfl
  unfold RtlImport.parse
  simp only [h1, h]

/-- Evaluation rule for `RtlStruct.parse` given the field loop's
result. -/
theorem RtlStruct_parse_eval (name : String) (content rest : List Tok)
    (flds : List RtlStructField)
    (hn : name ∉ rustKeywords)
    (h : fieldsLoop (content.length + 1) content [] = Except.ok flds) :
    RtlStruct.parse (Tok.ident ("struct") :: Tok.ident name ::
        Tok.group Delim.brace content :: rest)
      = Except.ok ({ name := name, fields := flds }, rest) := by
  have h1 : parseKw ("struct") (Tok.ident ("struct") :: Tok.ident name ::
      Tok.group Delim.brace content :: rest)
      = Except.ok ((), Tok.ident name :: Tok.group Delim.brace content :: rest) := rfl
  have h2 : parseIdent (Tok.ident name :: Tok.group Delim.brace content :: rest)
      = Except.ok (name, Tok.group Delim.brace content :: rest) := by
    simp [parseIdent, hn]
  have h3 : parseGroup Delim.brace (Tok.group Delim.brace content :: rest)
      = Except.ok (content, rest) := rfl
  unfold RtlStruct.parse
  simp only [h1, h2, h3, h]

/-- Claim C4: for well-formed imports `import a::b::c;`, `import a as x;`
and `import a::b as y;`, the import parser returns exactly the ordered
path segments appearing in the source (separators consumed and not
retained) and the alias when an `as` clause is present, for any number
of segments. -/
theorem c4_import_paths :
    ∀ (xs : List String) (a : String) (rest : List Tok),
    (∀ x ∈ xs, validIdent x = true) → validIdent a = true →
    RtlImport.parse (Tok.ident ("import") :: (importPathToks xs ++ Tok.punct (";") :: rest))
      = Except.ok ({ path := xs, aliasId := none }, rest)
    ∧ RtlImport.parse (Tok.ident ("import") ::
        (importPathToks xs ++ Tok.ident ("as") :: Tok.ident a :: Tok.punct (";") :: rest))
      = Except.ok ({ path := xs, aliasId := some a }, rest) := by
  intro xs a rest hv ha
  have ham : a ∉ rustKeywords := by simpa [validIdent] using ha
  constructor
  · refine RtlImport_parse_eval _ xs none rest ?_
    refine importLoop_shift xs _ [] none (Tok.punct (";") :: rest)
      (Except.ok ((xs, none), rest)) hv (by omega) ?_
    intro g hg
    obtain ⟨g1, rfl⟩ : ∃ g1, g = g1 + 1 := ⟨g - 1, by omega⟩
    simp [importLoop, forkAs, forkSemi, parseKw, parsePunct, isOkE]
  · refine RtlImport_parse_eval _ xs (some a) rest ?_
    refine importLoop_shift xs _ [] none
      (Tok.ident ("as") :: Tok.ident a :: Tok.punct (";") :: rest)
      (Except.ok ((xs, some a), rest)) hv (by omega) ?_
    intro g hg
    obtain ⟨g1, rfl⟩ : ∃ g1, g = g1 + 1 := ⟨g - 1, by omega⟩
    obtain ⟨g2, rfl⟩ : ∃ g2, g1 = g2 + 1 := by
      refine ⟨g1 - 1, ?_⟩
      simp at hg
      omega
    simp [importLoop, forkAs, forkSemi, forkPathSep, parseKw, parsePunct, parseIdent,
      isOkE, ham]

/-- Claim C4 witness: `import a::b as y;` parses to path `[a, b]` with
alias `y`. -/
theorem c4_witness :
    RtlImport.parse (Tok.ident ("import") ::
        (importPathToks ["a", "b"] ++ Tok.ident ("as") :: Tok.ident ("y") ::
          Tok.punct (";") :: []))
      = Except.ok ({ path := ["a", "b"], aliasId := some ("y") }, []) :=
  (c4_import_paths (["a", "b"]) ("y") [] (by decide) (by decide)).2

/-- Claim C8: a trailing comma after the last struct field changes
nothing: the struct parser accepts a comma-separated field list with or
without one trailing comma and yields the same name and ordered field
list either way. -/
theorem c8_trailing_comma :
    ∀ (name : String) (fs : List (String × String)) (rest : List Tok),
    validIdent name = true → fs ≠ [] →
    (∀ p ∈ fs, validIdent p.1 = true ∧ validIdent p.2 = true) →
    RtlStruct.parse (Tok.ident ("struct") :: Tok.ident name ::
        Tok.group Delim.brace (structFieldsToks fs ++ [Tok.punct (",")]) :: rest)
      = RtlStruct.parse (Tok.ident ("struct") :: Tok.ident name ::
        Tok.group Delim.brace (structFieldsToks fs) :: rest)
    ∧ RtlStruct.parse (Tok.ident ("struct") :: Tok.ident name ::
        Tok.group Delim.brace (structFieldsToks fs ++ [Tok.punct (",")]) :: rest)
      = Except.ok ({ name := name, fields := fs.map mkField }, rest) := by
  intro name fs rest hn hne hv
  have hnm : name ∉ rustKeywords := by simpa [validIdent] using hn
  have htr : RtlStruct.parse (Tok.ident ("struct") :: Tok.ident name ::
      Tok.group Delim.brace (structFieldsToks fs ++ [Tok.punct (",")]) :: rest)
      = Except.ok ({ name := name, fields := fs.map mkField }, rest) := by
    refine RtlStruct_parse_eval name _ rest _ hnm ?_
    have := fieldsLoop_trailing fs
      ((structFieldsToks fs ++ [Tok.punct (",")]).length + 1) [] hne hv
      (by simp)
    simpa using this
  have hpl : RtlStruct.parse (Tok.ident ("struct") :: Tok.ident name ::
      Tok.group Delim.brace (structFieldsToks fs) :: rest)
      = Except.ok ({ name := name, fields := fs.map mkField }, rest) := by
    refine RtlStruct_parse_eval name _ rest _ hnm ?_
    have := fieldsLoop_plain fs ((structFieldsToks fs).length + 1) [] hv (by omega)
    simpa using this
  exact ⟨htr.trans hpl.symm, htr⟩

/-- Claim C8 witness: `struct P \x7b String name, Int age, \x7d` parses to
the same fields as the version without the trailing comma. -/
theorem c8_witness :
    RtlStruct.parse (Tok.ident ("struct") :: Tok.ident ("P") ::
        Tok.group Delim.brace
          (structFieldsToks [("String", "name"), ("Int", "age")] ++ [Tok.punct (",")]) :: [])
      = Except.ok ({ name := "P",
                     fields := [{ ty := "String", name := "name" },
                                { ty := "Int", name := "age" }] }, []) :=
  (c8_trailing_comma ("P") ([("String", "name"), ("Int", "age")]) []
    (by decide) (by decide) (by decide)).2

/-- Claim C5: after `gen`, the generic-block parser loops parsing
functions until the remaining stream is empty — a successful parse
leaves an empty remainder (so no declaration can follow a generic
block), and any non-function token after `gen` fails the parse. -/
theorem c5_gen_consumes_all :
    (∀ (s : List Tok) (g : RtlGen) (r : List Tok),
       RtlGen.parse s = Except.ok (g, r) → r = [])
    ∧ (∀ (t : Tok) (rest : List Tok), peekIdentKw ("f") (t :: rest) = false →
         RtlGen.parse (Tok.ident ("gen") :: t :: rest)
           = Except.error (PErr.expectedToken ("f"))) := by
  constructor
  · intro s g r h
    unfold RtlGen.parse at h
    cases hk : parseKw ("gen") s with
    | error e => rw [hk] at h; exact absurd h (by simp)
    | ok v =>
        obtain ⟨u, s1⟩ := v
        rw [hk] at h
        simp only [] at h
        cases hg : genLoop (s1.length + 1) s1 [] with
        | error e => rw [hg] at h; exact absurd h (by simp)
        | ok w =>
            obtain ⟨ms, r2⟩ := w
            rw [hg] at h
            simp only [Except.ok.injEq, Prod.mk.injEq] at h
            rw [← h.2]
            exact genLoop_rest_nil (s1.length + 1) s1 [] ms r2 hg
  · intro t rest hpeek
    have hf : parseKw ("f") (t :: rest) = Except.error (PErr.expectedToken ("f")) := by
      cases t with
      | ident n =>
          simp [peekIdentKw] at hpeek
          simp [parseKw, hpeek]
      | punct q => rfl
      | lit q => rfl
      | group d inner => rfl
    have hfn : RtlFn.parse (t :: rest) = Except.error (PErr.expectedToken ("f")) := by
      unfold RtlFn.parse
      simp only [hf]
    have hgl : genLoop (rest.length + 1 + 1) (t :: rest) []
        = Except.error (PErr.expectedToken ("f")) := by
      rw [genLoop]
      simp only [hfn]
    have h1 : parseKw ("gen") (Tok.ident ("gen") :: t :: rest)
        = Except.ok ((), t :: rest) := rfl
    unfold RtlGen.parse
    simp only [h1, List.length_cons, hgl]

/-- Claim C5 witness: a non-function token right after `gen` makes the
generic-block parse fail. -/
theorem c5_witness :
    RtlGen.parse [Tok.ident ("gen"), Tok.ident ("var")]
      = Except.error (PErr.expectedToken ("f"))
    ∧ ([] : List Tok) = [] :=
  ⟨c5_gen_consumes_all.2 (Tok.ident ("var")) [] (by decide),
   c5_gen_consumes_all.1 [Tok.ident ("gen")] { methods := [] } [] rfl⟩

/-- Claim C2: once `f`, the name, the parenthesized argument list and
the return type have parsed, the function parser forks the stream to
probe for a terminator: if the fork succeeds the terminator is
committed on the real stream and the returned body is the empty
placeholder; if the fork fails, the body is parsed on the real stream
instead, and no token is consumed from the real stream before the
branch is decided. -/
theorem c2_fn_terminator_fork :
    ∀ (s s1 s2 content s3 s4 : List Tok) (name ret : String) (args : List RtlFnArg),
    parseKw ("f") s = Except.ok ((), s1) →
    parseIdent s1 = Except.ok (name, s2) →
    parseGroup Delim.paren s2 = Except.ok (content, s3) →
    fnArgsLoop (content.length + 1) content [] = Except.ok args →
    parseIdent s3 = Except.ok (ret, s4) →
    ((forkSemi s4 = true →
        RtlFn.parse s
          = Except.ok ({ name := name, args := args, ret := ret, body := RtlBody.mk },
              s4.tail))
     ∧ (forkSemi s4 = false →
        RtlBody.parse s4 = Except.ok (RtlBody.mk, s4) ∧
        RtlFn.parse s
          = Except.ok ({ name := name, args := args, ret := ret, body := RtlBody.mk },
              s4))) := by
  intro s s1 s2 content s3 s4 name ret args h1 h2 h3 h4 h5
  constructor
  · intro hsemi
    obtain ⟨s5, rfl⟩ : ∃ s5, s4 = Tok.punct (";") :: s5 := by
      cases s4 with
      | nil => simp [forkSemi, parsePunct, isOkE] at hsemi
      | cons t r =>
          cases t with
          | punct q =>
              by_cases hq : q = ";"
              · exact ⟨r, by rw [hq]⟩
              · simp [forkSemi, parsePunct, isOkE, hq] at hsemi
          | ident q => simp [forkSemi, parsePunct, isOkE] at hsemi
          | lit q => simp [forkSemi, parsePunct, isOkE] at hsemi
          | group d i => simp [forkSemi, parsePunct, isOkE] at hsemi
    unfold RtlFn.parse
    simp only [h1, h2, h3, h4, h5]
    simp [forkSemi, parsePunct, isOkE]
  · intro hsemi
    refine ⟨rfl, ?_⟩
    unfold RtlFn.parse
    simp only [h1, h2, h3, h4, h5, hsemi]
    simp [RtlBody.parse]

/-- Claim C2 witness: `f Name(Int x, Int y) Int;` parses via the
committed terminator with an empty placeholder body and nothing left on
the stream. -/
theorem c2_witness :
    RtlFn.parse [Tok.ident ("f"), Tok.ident ("Name"),
        Tok.group Delim.paren [Tok.ident ("Int"), Tok.ident ("x"), Tok.punct (","),
          Tok.ident ("Int"), Tok.ident ("y")],
        Tok.ident ("Int"), Tok.punct (";")]
      = Except.ok ({ name := "Name",
                     args := [{ ty := "Int", name := "x" }, { ty := "Int", name := "y" }],
                     ret := "Int", body := RtlBody.mk }, []) :=
  (c2_fn_terminator_fork
    [Tok.ident ("f"), Tok.ident ("Name"),
      Tok.group Delim.paren [Tok.ident ("Int"), Tok.ident ("x"), Tok.punct (","),
        Tok.ident ("Int"), Tok.ident ("y")],
      Tok.ident ("Int"), Tok.punct (";")]
    [Tok.ident ("Name"),
      Tok.group Delim.paren [Tok.ident ("Int"), Tok.ident ("x"), Tok.punct (","),
        Tok.ident ("Int"), Tok.ident ("y")],
      Tok.ident ("Int"), Tok.punct (";")]
    [Tok.group Delim.paren [Tok.ident ("Int"), Tok.ident ("x"), Tok.punct (","),
        Tok.ident ("Int"), Tok.ident ("y")],
      Tok.ident ("Int"), Tok.punct (";")]
    [Tok.ident ("Int"), Tok.ident ("x"), Tok.punct (","), Tok.ident ("Int"),
      Tok.ident ("y")]
    [Tok.ident ("Int"), Tok.punct (";")]
    [Tok.punct (";")]
    ("Name") ("Int")
    [{ ty := "Int", name := "x" }, { ty := "Int", name := "y" }]
    rfl rfl rfl rfl rfl).1 rfl

/-- Claim C3: the placeholder body parser consumes zero tokens and its
result is discarded, so a block-form function (brace group after the
return type) parses while leaving the brace group unconsumed on the
stream, and the continuation in every enclosing context — the top-level
declaration loop, a def-block body loop, a generic-block loop — then
fails on that brace group; hence no input containing a block-bodied
function parses successfully. -/
theorem c3_block_body_unconsumed :
    (∀ s : List Tok, RtlBody.parse s = Except.ok (RtlBody.mk, s))
    ∧ (∀ (s s1 s2 content s3 : List Tok) (name ret : String) (args : List RtlFnArg)
         (inner rest : List Tok),
       parseKw ("f") s = Except.ok ((), s1) →
       parseIdent s1 = Except.ok (name, s2) →
       parseGroup Delim.paren s2 = Except.ok (content, s3) →
       fnArgsLoop (content.length + 1) content [] = Except.ok args →
       parseIdent s3 = Except.ok (ret, Tok.group Delim.brace inner :: rest) →
       RtlFn.parse s
         = Except.ok ({ name := name, args := args, ret := ret, body := RtlBody.mk },
             Tok.group Delim.brace inner :: rest))
    ∧ (∀ (inner rest : List Tok) (fuel : Nat) (acc : List RtlDecl),
         declsLoop (fuel + 1) (Tok.group Delim.brace inner :: rest) acc
           = Except.error (PErr.lookaheadFailed declExpected))
    ∧ (∀ (inner rest : List Tok) (fuel : Nat) (acc : List RtlFn),
         defFnsLoop (fuel + 1) (Tok.group Delim.brace inner :: rest) acc
           = Except.error (PErr.expectedToken ("f")))
    ∧ (∀ (inner rest : List Tok) (fuel : Nat) (acc : List RtlFn),
         genLoop (fuel + 1) (Tok.group Delim.brace inner :: rest) acc
           = Except.error (PErr.expectedToken ("f"))) := by
  refine ⟨fun s => rfl, ?_, ?_, ?_, ?_⟩
  · intro s s1 s2 content s3 name ret args inner rest h1 h2 h3 h4 h5
    unfold RtlFn.parse
    simp only [h1, h2, h3, h4, h5]
    simp [forkSemi, parsePunct, isOkE, RtlBody.parse]
  · intro inner rest fuel acc
    rfl
  · intro inner rest fuel acc
    rfl
  · intro inner rest fuel acc
    rfl

/-- Claim C3 witness: the block-form `f Name() Unit \x7b \x7d` leaves its
brace group on the stream, and the top-level declaration loop fails on
that leftover group. -/
theorem c3_witness :
    RtlFn.parse [Tok.ident ("f"), Tok.ident ("Name"), Tok.group Delim.paren [],
        Tok.ident ("Unit"), Tok.group Delim.brace []]
      = Except.ok ({ name := "Name", args := [], ret := "Unit", body := RtlBody.mk },
          [Tok.group Delim.brace []])
    ∧ declsLoop 1 [Tok.group Delim.brace []] []
      = Except.error (PErr.lookaheadFailed declExpected) :=
  ⟨c3_block_body_unconsumed.2.1
      [Tok.ident ("f"), Tok.ident ("Name"), Tok.group Delim.paren [],
        Tok.ident ("Unit"), Tok.group Delim.brace []]
      [Tok.ident ("Name"), Tok.group Delim.paren [], Tok.ident ("Unit"),
        Tok.group Delim.brace []]
      [Tok.group Delim.paren [], Tok.ident ("Unit"), Tok.group Delim.brace []]
      []
      [Tok.ident ("Unit"), Tok.group Delim.brace []]
      ("Name") ("Unit") [] [] []
      rfl rfl rfl rfl rfl,
   c3_block_body_unconsumed.2.2.1 [] [] 0 []⟩

/-- Claim C6: the declaration dispatcher chooses among exactly seven
alternatives by one-token lookahead (`f`, `const`, `var`, `static`,
`struct`, `def`, `gen`), and when none of the seven matches the next
token it fails with an aggregated error naming every expected token
kind tried at that position. -/
theorem c6_decl_dispatch :
    (∀ rest : List Tok, RtlDecl.parse (Tok.ident ("f") :: rest)
        = wrapD (RtlFn.parse (Tok.ident ("f") :: rest)) RtlDeclValue.RtlFn)
    ∧ (∀ rest : List Tok, RtlDecl.parse (Tok.ident ("const") :: rest)
        = wrapD (RtlConstExpr.parse (Tok.ident ("const") :: rest)) RtlDeclValue.RtlConst)
    ∧ (∀ rest : List Tok, RtlDecl.parse (Tok.ident ("var") :: rest)
        = wrapD (RtlVarExpr.parse (Tok.ident ("var") :: rest)) RtlDeclValue.RtlVar)
    ∧ (∀ rest : List Tok, RtlDecl.parse (Tok.ident ("static") :: rest)
        = wrapD (RtlStatic.parse (Tok.ident ("static") :: rest)) RtlDeclValue.RtlStatic)
    ∧ (∀ rest : List Tok, RtlDecl.parse (Tok.ident ("struct") :: rest)
        = wrapD (RtlStruct.parse (Tok.ident ("struct") :: rest)) RtlDeclValue.RtlStruct)
    ∧ (∀ rest : List Tok, RtlDecl.parse (Tok.ident ("def") :: rest)
        = wrapD (RtlDef.parse (Tok.ident ("def") :: rest)) RtlDeclValue.RtlDef)
    ∧ (∀ rest : List Tok, RtlDecl.parse (Tok.ident ("gen") :: rest)
        = wrapD (RtlGen.parse (Tok.ident ("gen") :: rest)) RtlDeclValue.RtlGen)
    ∧ (∀ s : List Tok, declKeywordAt s = false →
        RtlDecl.parse s
          = Except.error (PErr.lookaheadFailed
              ["f", "const", "var", "static", "struct", "def", "gen"])) := by
  refine ⟨fun rest => rfl, fun rest => rfl, fun rest => rfl, fun rest => rfl,
    fun rest => rfl, fun rest => rfl, fun rest => rfl, ?_⟩
  intro s h
  simp only [declKeywordAt, Bool.or_eq_false_iff] at h
  obtain ⟨⟨⟨⟨⟨⟨h1, h2⟩, h3⟩, h4⟩, h5⟩, h6⟩, h7⟩ := h
  unfold RtlDecl.parse
  simp [h1, h2, h3, h4, h5, h6, h7, declExpected]

/-- Claim C6 witness: on a stream starting with `=`, no candidate
matches and the dispatcher reports all seven expected kinds. -/
theorem c6_witness :
    RtlDecl.parse [Tok.punct ("=")]
      = Except.error (PErr.lookaheadFailed
          ["f", "const", "var", "static", "struct", "def", "gen"]) :=
  c6_decl_dispatch.2.2.2.2.2.2.2 [Tok.punct ("=")] (by decide)

/-- Claim C1 counterexample: the input `import ;` does not fail — the
whole parse succeeds and the import parser returns an Import node whose
path-segment list is empty. -/
theorem c1_counterexample :
    parse [Tok.ident ("import"), Tok.punct (";")]
      = Except.ok ({ decls := [],
                     imports := [{ path := [], aliasId := none }],
                     public := [] }) := rfl

/-- Claim C1 (amended): parsing `struct \x7b \x7d` fails with a reported
error, while parsing `import ;` succeeds, returning an Import node with
an empty path-segment list and no alias. -/
theorem c1_malformed_inputs :
    parse [Tok.ident ("struct"), Tok.group Delim.brace []]
      = Except.error (PErr.expectedToken ("identifier"))
    ∧ parse [Tok.ident ("import"), Tok.punct (";")]
      = Except.ok ({ decls := [],
                     imports := [{ path := [], aliasId := none }],
                     public := [] }) :=
  ⟨rfl, rfl⟩

/-- Claim C7: `def S \x7b f G(This t) Str; \x7d for T;` yields struct
name S, one nested function G, def target Some T, with the trailing
terminator consumed; `def S \x7b \x7d` succeeds with no target, no
trailing terminator needed, and zero nested functions. -/
theorem c7_def_block :
    RtlDef.parse [Tok.ident ("def"), Tok.ident ("S"),
        Tok.group Delim.brace [Tok.ident ("f"), Tok.ident ("G"),
          Tok.group Delim.paren [Tok.ident ("This"), Tok.ident ("t")],
          Tok.ident ("Str"), Tok.punct (";")],
        Tok.ident ("for"), Tok.ident ("T"), Tok.punct (";")]
      = Except.ok ({ struct_name := "S",
                     defs := [{ name := "G", args := [{ ty := "This", name := "t" }],
                                ret := "Str", body := RtlBody.mk }],
                     def_for := some ("T") }, [])
    ∧ RtlDef.parse [Tok.ident ("def"), Tok.ident ("S"), Tok.group Delim.brace []]
      = Except.ok ({ struct_name := "S", defs := [], def_for := none }, []) :=
  ⟨rfl, rfl⟩

/-- Claim C9: after committing an optional stray terminator, the
top-level loop unconditionally parses a declaration, so a stream whose
final remaining token is a stray terminator after the last declaration
fails — in particular `struct P \x7b\x7d;` does not parse. -/
theorem c9_stray_terminator :
    (∀ (fuel : Nat) (acc : List RtlDecl),
       declsLoop (fuel + 1) [Tok.punct (";")] acc
         = Except.error (PErr.lookaheadFailed declExpected))
    ∧ parse [Tok.ident ("struct"), Tok.ident ("P"), Tok.group Delim.brace [],
        Tok.punct (";")]
      = Except.error (PErr.lookaheadFailed declExpected) :=
  ⟨fun _ _ => rfl, rfl⟩

/-- Claim C10: parsing is deterministic — byte-identical input token
streams yield structurally equal results, the same tree on success and
the same failure otherwise. -/
theorem c10_deterministic :
    ∀ ts1 ts2 : List Tok, ts1 = ts2 → parse ts1 = parse ts2 := by
  intro ts1 ts2 h
  rw [h]

/-- Claim C10 witness: two parses of the same concrete input agree. -/
theorem c10_witness :
    parse [Tok.ident ("struct"), Tok.ident ("Q"), Tok.group Delim.brace []]
      = parse [Tok.ident ("struct"), Tok.ident ("Q"), Tok.group Delim.brace []] :=
  c10_deterministic
    [Tok.ident ("struct"), Tok.ident ("Q"), Tok.group Delim.brace []]
    [Tok.ident ("struct"), Tok.ident ("Q"), Tok.group Delim.brace []] rfl
